import Mathlib

/-!
Verification of the EWMA Z-Score streaming anomaly detector
(`class ZScoreEWMA_AnomalyDetector` in `Task.py`).

The detector holds a smoothing factor `alpha`, a `threshold`, and two running
statistics `mean_ewma` and `variance_ewma` that start out as Python `None`
(modelled with `Option ℝ`).  Numbers are modelled as exact reals; `np.sqrt` is
modelled by `Real.sqrt` (they agree on nonnegative arguments, the only ones a
detector with `alpha ∈ [0,1]` ever produces).  A `detect` call that would make
Python raise a `TypeError` (arithmetic on `None`) is modelled by `none`.
-/

/-- The state held by `ZScoreEWMA_AnomalyDetector`: the two constructor
parameters and the two running EWMA statistics (`None` before the first call). -/
structure ZScoreEWMA_AnomalyDetector where
  alpha : ℝ
  mean_ewma : Option ℝ
  variance_ewma : Option ℝ
  threshold : ℝ

namespace ZScoreEWMA_AnomalyDetector

/-- `__init__(alpha, threshold)`: stores the two parameters and sets both
running statistics to `None`.  The source performs no validation of either
parameter. -/
def init (alpha threshold : ℝ) : ZScoreEWMA_AnomalyDetector :=
  { alpha := alpha, mean_ewma := none, variance_ewma := none, threshold := threshold }

/-- `detect(value)`: on the first call (`mean_ewma is None`) it initializes
`mean_ewma := value`, `variance_ewma := 0` and returns `False`.  Otherwise it
first refreshes the mean (`mean_ewma = alpha*value + (1-alpha)*mean_ewma`),
then computes `deviation = value - mean_ewma` from the refreshed mean, updates
the variance, and returns `|deviation| / (sqrt(variance) + 1e-6) > threshold`.
Returns the flag with the updated state; `none` models the `TypeError` Python
would raise if `variance_ewma` were `None` while `mean_ewma` is set (a state no
construction-then-`detect` sequence can reach). -/
noncomputable def detect (self : ZScoreEWMA_AnomalyDetector) (value : ℝ) :
    Option (Bool × ZScoreEWMA_AnomalyDetector) :=
  match self.mean_ewma with
  | none =>
      some (false, { self with mean_ewma := some value, variance_ewma := some 0 })
  | some m =>
      match self.variance_ewma with
      | none => none
      | some var =>
          let mean' := self.alpha * value + (1 - self.alpha) * m
          let deviation := value - mean'
          let var' := self.alpha * deviation ^ 2 + (1 - self.alpha) * var
          let std := Real.sqrt var'
          let z := |deviation| / (std + 1e-6)
          some (@decide (z > self.threshold) (Classical.propDecidable _),
            { self with mean_ewma := some mean', variance_ewma := some var' })

end ZScoreEWMA_AnomalyDetector

/-- Feeds a finite list of values to `detect` one at a time, collecting the
returned flags and the final detector state (the loop of
`real_time_visualization` restricted to the detector interaction). -/
noncomputable def detectRun (d : ZScoreEWMA_AnomalyDetector) :
    List ℝ → Option (List Bool × ZScoreEWMA_AnomalyDetector)
  | [] => some ([], d)
  | v :: vs =>
      match d.detect v with
      | none => none
      | some (b, d') =>
          match detectRun d' vs with
          | none => none
          | some (bs, e) => some (b :: bs, e)

/-- Modelled from the spec: the spec's step 2 for `detect` computes
`deviation = value − meanEstimate` from the *pre-update* mean, then updates the
mean and updates the variance with that pre-update deviation.  Written only to
be compared with the source's `detect`. -/
noncomputable def detectSpecPre (self : ZScoreEWMA_AnomalyDetector) (value : ℝ) :
    Option (Bool × ZScoreEWMA_AnomalyDetector) :=
  match self.mean_ewma with
  | none =>
      some (false, { self with mean_ewma := some value, variance_ewma := some 0 })
  | some m =>
      match self.variance_ewma with
      | none => none
      | some var =>
          let deviation := value - m
          let mean' := self.alpha * value + (1 - self.alpha) * m
          let var' := self.alpha * deviation ^ 2 + (1 - self.alpha) * var
          let std := Real.sqrt var'
          let z := |deviation| / (std + 1e-6)
          some (@decide (z > self.threshold) (Classical.propDecidable _),
            { self with mean_ewma := some mean', variance_ewma := some var' })

namespace ZScoreEWMA_AnomalyDetector

/-- A state is well formed when `variance_ewma` is initialized whenever
`mean_ewma` is; every state reachable from `init` satisfies this. -/
def WF (d : ZScoreEWMA_AnomalyDetector) : Prop :=
  d.mean_ewma = none ∨ ∃ x, d.variance_ewma = some x

/-- A state is reachable when some constructed detector run over some finite
input list ends in it. -/
def Reachable (d : ZScoreEWMA_AnomalyDetector) : Prop :=
  ∃ a t vs bs, detectRun (init a t) vs = some (bs, d)

/-- Non-negativity of every initialized variance estimate in a state. -/
def VarNonneg (d : ZScoreEWMA_AnomalyDetector) : Prop :=
  ∀ x, d.variance_ewma = some x → 0 ≤ x

lemma detect_none {d : ZScoreEWMA_AnomalyDetector} (h : d.mean_ewma = none) (v : ℝ) :
    d.detect v = some (false, { d with mean_ewma := some v, variance_ewma := some 0 }) := by
  unfold detect
  rw [h]

lemma detect_some {d : ZScoreEWMA_AnomalyDetector} {m x : ℝ}
    (hm : d.mean_ewma = some m) (hx : d.variance_ewma = some x) (v : ℝ) :
    d.detect v = some
      (@decide (|v - (d.alpha * v + (1 - d.alpha) * m)| /
          (Real.sqrt (d.alpha * (v - (d.alpha * v + (1 - d.alpha) * m)) ^ 2
              + (1 - d.alpha) * x) + 1e-6) > d.threshold) (Classical.propDecidable _),
       { d with
          mean_ewma := some (d.alpha * v + (1 - d.alpha) * m),
          variance_ewma := some (d.alpha * (v - (d.alpha * v + (1 - d.alpha) * m)) ^ 2
              + (1 - d.alpha) * x) }) := by
  unfold detect
  rw [hm, hx]

lemma detect_none_var {d : ZScoreEWMA_AnomalyDetector} {m : ℝ}
    (hm : d.mean_ewma = some m) (hx : d.variance_ewma = none) (v : ℝ) :
    d.detect v = none := by
  unfold detect
  rw [hm, hx]

lemma detectRun_nil (d : ZScoreEWMA_AnomalyDetector) : detectRun d [] = some ([], d) := rfl

lemma detectRun_cons {d d' : ZScoreEWMA_AnomalyDetector} {b : Bool} {v : ℝ} (vs : List ℝ)
    (h : d.detect v = some (b, d')) :
    detectRun d (v :: vs) = (detectRun d' vs).map (fun r => (b :: r.1, r.2)) := by
  have step : detectRun d (v :: vs) =
      match detectRun d' vs with
      | none => none
      | some (bs, e) => some (b :: bs, e) := by
    simp only [detectRun, h]
  rw [step]
  rcases detectRun d' vs with _ | ⟨bs, e⟩ <;> rfl

lemma detect_total {d : ZScoreEWMA_AnomalyDetector} (hwf : WF d) (v : ℝ) :
    ∃ b e, d.detect v = some (b, e) ∧ WF e ∧ e.alpha = d.alpha ∧ e.threshold = d.threshold := by
  rcases hd : d.mean_ewma with _ | m
  · exact ⟨false, _, detect_none hd v, Or.inr ⟨0, rfl⟩, rfl, rfl⟩
  · rcases hwf with hnone | ⟨x, hx⟩
    · rw [hd] at hnone; cases hnone
    · exact ⟨_, _, detect_some hd hx v, Or.inr ⟨_, rfl⟩, rfl, rfl⟩

lemma run_total {d : ZScoreEWMA_AnomalyDetector} (vs : List ℝ) (hwf : WF d) :
    ∃ bs e, detectRun d vs = some (bs, e) ∧ WF e ∧ e.alpha = d.alpha ∧
      e.threshold = d.threshold := by
  induction vs generalizing d with
  | nil => exact ⟨[], d, detectRun_nil d, hwf, rfl, rfl⟩
  | cons v vs ih =>
      obtain ⟨b, d', hstep, hwf', ha', ht'⟩ := detect_total hwf v
      obtain ⟨bs, e, hrun, hwfe, hae, hte⟩ := ih hwf'
      refine ⟨b :: bs, e, ?_, hwfe, hae.trans ha', hte.trans ht'⟩
      rw [detectRun_cons vs hstep, hrun]
      rfl

lemma init_WF (a t : ℝ) : WF (init a t) := Or.inl rfl

lemma reachable_WF {d : ZScoreEWMA_AnomalyDetector} (h : Reachable d) : WF d := by
  obtain ⟨a, t, vs, bs, hrun⟩ := h
  obtain ⟨bs', e, hrun', hwfe, -, -⟩ := run_total vs (init_WF a t)
  rw [hrun] at hrun'
  injection hrun' with h1
  have h2 : d = e := congrArg Prod.snd h1
  exact h2.symm ▸ hwfe

lemma detect_var_nonneg {d e : ZScoreEWMA_AnomalyDetector} {b : Bool} {v : ℝ}
    (h0 : 0 ≤ d.alpha) (h1 : d.alpha ≤ 1) (hv : VarNonneg d)
    (hstep : d.detect v = some (b, e)) : VarNonneg e := by
  rcases hd : d.mean_ewma with _ | m
  · rw [detect_none hd v] at hstep
    injection hstep with h'
    obtain rfl : e = { d with mean_ewma := some v, variance_ewma := some 0 } :=
      (congrArg Prod.snd h').symm
    intro x hx
    injection hx with hx
    simp [← hx]
  · rcases hx : d.variance_ewma with _ | x
    · rw [detect_none_var hd hx v] at hstep
      cases hstep
    · rw [detect_some hd hx v] at hstep
      injection hstep with h'
      obtain rfl := (congrArg Prod.snd h').symm
      intro y hy
      injection hy with hy
      have hxnn : 0 ≤ x := hv x hx
      nlinarith [sq_nonneg (v - (d.alpha * v + (1 - d.alpha) * m))]

lemma run_var_nonneg {d : ZScoreEWMA_AnomalyDetector} {vs : List ℝ}
    {bs : List Bool} {e : ZScoreEWMA_AnomalyDetector}
    (h0 : 0 ≤ d.alpha) (h1 : d.alpha ≤ 1) (hv : VarNonneg d)
    (hrun : detectRun d vs = some (bs, e)) : VarNonneg e := by
  induction vs generalizing d bs with
  | nil =>
      rw [detectRun_nil] at hrun
      injection hrun with h'
      obtain rfl := (congrArg Prod.snd h').symm
      exact hv
  | cons v vs ih =>
      rcases hstep : d.detect v with _ | ⟨b, d'⟩
      · simp only [detectRun, hstep] at hrun
        cases hrun
      · have halpha : d'.alpha = d.alpha := by
          rcases hd : d.mean_ewma with _ | m
          · rw [detect_none hd v] at hstep
            injection hstep with h'
            obtain rfl := (congrArg Prod.snd h').symm
            rfl
          · rcases hx : d.variance_ewma with _ | x
            · rw [detect_none_var hd hx v] at hstep
              cases hstep
            · rw [detect_some hd hx v] at hstep
              injection hstep with h'
              obtain rfl := (congrArg Prod.snd h').symm
              rfl
        rw [detectRun_cons vs hstep] at hrun
        rcases hrest : detectRun d' vs with _ | ⟨bs', e'⟩
        · rw [hrest] at hrun
          cases hrun
        · rw [hrest] at hrun
          injection hrun with h'
          obtain rfl : e' = e := congrArg Prod.snd h'
          exact ih (halpha ▸ h0) (halpha ▸ h1)
            (detect_var_nonneg h0 h1 hv hstep) hrest

lemma detect_pair {d1 d2 : ZScoreEWMA_AnomalyDetector} (ha : d1.alpha = d2.alpha)
    (hm : d1.mean_ewma = d2.mean_ewma) (hv : d1.variance_ewma = d2.variance_ewma)
    (hwf : WF d1) (v : ℝ) :
    ∃ b1 e1 b2 e2, d1.detect v = some (b1, e1) ∧ d2.detect v = some (b2, e2) ∧
      e1.alpha = d1.alpha ∧ e2.alpha = d2.alpha ∧
      e1.threshold = d1.threshold ∧ e2.threshold = d2.threshold ∧
      e1.mean_ewma = e2.mean_ewma ∧ e1.variance_ewma = e2.variance_ewma ∧ WF e1 ∧
      (d1.threshold ≤ d2.threshold → b2 = true → b1 = true) := by
  rcases hd : d1.mean_ewma with _ | m
  · have hd2 : d2.mean_ewma = none := hm.symm.trans hd
    refine ⟨false, _, false, _, detect_none hd v, detect_none hd2 v,
      rfl, rfl, rfl, rfl, rfl, rfl, Or.inr ⟨0, rfl⟩, fun _ h => h⟩
  · rcases hwf with hnone | ⟨x, hx⟩
    · rw [hd] at hnone
      cases hnone
    · have hd2 : d2.mean_ewma = some m := hm.symm.trans hd
      have hx2 : d2.variance_ewma = some x := hv.symm.trans hx
      refine ⟨_, _, _, _, detect_some hd hx v, detect_some hd2 hx2 v,
        rfl, rfl, rfl, rfl, by rw [ha], by rw [ha], Or.inr ⟨_, rfl⟩, ?_⟩
      intro hle h2
      simp only [decide_eq_true_eq] at h2 ⊢
      rw [ha]
      exact lt_of_le_of_lt hle h2

lemma run_pair {d1 d2 : ZScoreEWMA_AnomalyDetector} (vs : List ℝ) (ha : d1.alpha = d2.alpha)
    (hm : d1.mean_ewma = d2.mean_ewma) (hv : d1.variance_ewma = d2.variance_ewma)
    (hwf : WF d1) :
    ∃ bs1 e1 bs2 e2, detectRun d1 vs = some (bs1, e1) ∧ detectRun d2 vs = some (bs2, e2) ∧
      e1.mean_ewma = e2.mean_ewma ∧ e1.variance_ewma = e2.variance_ewma ∧
      (d1.threshold ≤ d2.threshold →
        ∀ i, bs2.getD i false = true → bs1.getD i false = true) := by
  induction vs generalizing d1 d2 with
  | nil =>
      exact ⟨[], d1, [], d2, detectRun_nil d1, detectRun_nil d2, hm, hv,
        fun _ i h => by simp [List.getD_nil] at h⟩
  | cons v vs ih =>
      obtain ⟨b1, e1, b2, e2, hs1, hs2, hea1, hea2, het1, het2, hem, hev, hewf, hflag⟩ :=
        detect_pair ha hm hv hwf v
      have ha' : e1.alpha = e2.alpha := by rw [hea1, hea2, ha]
      obtain ⟨bs1, f1, bs2, f2, hr1, hr2, hfm, hfv, hrest⟩ := ih ha' hem hev hewf
      refine ⟨b1 :: bs1, f1, b2 :: bs2, f2, ?_, ?_, hfm, hfv, ?_⟩
      · rw [detectRun_cons vs hs1, hr1]
        rfl
      · rw [detectRun_cons vs hs2, hr2]
        rfl
      · intro hle i
        have hle' : e1.threshold ≤ e2.threshold := by rw [het1, het2]; exact hle
        cases i with
        | zero =>
            simpa only [List.getD_cons_zero] using hflag hle
        | succ i =>
            simpa only [List.getD_cons_succ] using hrest hle' i

lemma specPre_some {d : ZScoreEWMA_AnomalyDetector} {m x : ℝ}
    (hm : d.mean_ewma = some m) (hx : d.variance_ewma = some x) (v : ℝ) :
    detectSpecPre d v = some
      (@decide (|v - m| /
          (Real.sqrt (d.alpha * (v - m) ^ 2 + (1 - d.alpha) * x) + 1e-6) > d.threshold)
        (Classical.propDecidable _),
       { d with
          mean_ewma := some (d.alpha * v + (1 - d.alpha) * m),
          variance_ewma := some (d.alpha * (v - m) ^ 2 + (1 - d.alpha) * x) }) := by
  unfold detectSpecPre
  rw [hm, hx]

lemma detect_some_eval {d : ZScoreEWMA_AnomalyDetector} {m x v mean' var' : ℝ} {flag : Bool}
    (hm : d.mean_ewma = some m) (hx : d.variance_ewma = some x)
    (hmean : d.alpha * v + (1 - d.alpha) * m = mean')
    (hvar : d.alpha * (v - mean') ^ 2 + (1 - d.alpha) * x = var')
    (hflag : @decide (|v - mean'| / (Real.sqrt var' + 1e-6) > d.threshold)
        (Classical.propDecidable _) = flag) :
    d.detect v = some (flag, { d with mean_ewma := some mean', variance_ewma := some var' }) := by
  subst hmean
  subst hvar
  subst hflag
  exact detect_some hm hx v

lemma detect_init_first (a t v : ℝ) :
    (init a t).detect v = some (false, ⟨a, some v, some 0, t⟩) :=
  detect_none rfl v

lemma detect_const_false (a : ℝ) {t : ℝ} (ht : 0 ≤ t) (v : ℝ) :
    (⟨a, some v, some 0, t⟩ : ZScoreEWMA_AnomalyDetector).detect v =
      some (false, ⟨a, some v, some 0, t⟩) := by
  refine detect_some_eval rfl rfl (by ring) (by ring) (decide_eq_false ?_)
  rw [not_lt]
  simpa [sub_self, Real.sqrt_zero] using ht

lemma detect_const_true (a : ℝ) {t : ℝ} (ht : t < 0) (v : ℝ) :
    (⟨a, some v, some 0, t⟩ : ZScoreEWMA_AnomalyDetector).detect v =
      some (true, ⟨a, some v, some 0, t⟩) := by
  refine detect_some_eval rfl rfl (by ring) (by ring) (decide_eq_true ?_)
  simpa [sub_self, Real.sqrt_zero] using ht

lemma step30_z0 :
    (⟨3/10, some 0, some 0, 3⟩ : ZScoreEWMA_AnomalyDetector).detect 0 =
      some (false, ⟨3/10, some 0, some 0, 3⟩) :=
  detect_const_false (3/10) (by norm_num) 0

lemma step30_z10 :
    (⟨3/10, some 0, some 0, 3⟩ : ZScoreEWMA_AnomalyDetector).detect 10 =
      some (false, ⟨3/10, some 3, some (147/10), 3⟩) := by
  refine detect_some_eval rfl rfl (by norm_num) (by norm_num) (decide_eq_false ?_)
  rw [not_lt]
  have h1 : (7/3 : ℝ) ≤ Real.sqrt (147/10) := Real.le_sqrt_of_sq_le (by norm_num)
  have h2 : (0:ℝ) < Real.sqrt (147/10) + 1e-6 := by positivity
  rw [div_le_iff₀ h2]
  have h3 : |(10:ℝ) - 3| = 7 := by norm_num
  rw [h3]
  nlinarith

lemma run30_short :
    detectRun (init (3/10) 3) [0, 10] =
      some ([false, false], ⟨3/10, some 3, some (147/10), 3⟩) := by
  rw [detectRun_cons _ (detect_init_first (3/10) 3 0), detectRun_cons _ step30_z10,
    detectRun_nil]
  rfl

lemma run30_scenario :
    detectRun (init (3/10) 3) [0, 0, 0, 0, 10] =
      some ([false, false, false, false, false], ⟨3/10, some 3, some (147/10), 3⟩) := by
  rw [detectRun_cons _ (detect_init_first (3/10) 3 0), detectRun_cons _ step30_z0,
    detectRun_cons _ step30_z0, detectRun_cons _ step30_z0, detectRun_cons _ step30_z10,
    detectRun_nil]
  rfl

lemma run_const {a t : ℝ} (ht : 0 ≤ t) (v : ℝ) (n : ℕ) :
    detectRun (⟨a, some v, some 0, t⟩ : ZScoreEWMA_AnomalyDetector) (List.replicate n v) =
      some (List.replicate n false, ⟨a, some v, some 0, t⟩) := by
  induction n with
  | zero => rfl
  | succ n ih =>
      rw [List.replicate_succ, detectRun_cons _ (detect_const_false a ht v), ih,
        List.replicate_succ]
      rfl

lemma run_const55 (t : ℝ) (ht : 0 ≤ t) :
    detectRun (init (1/2) t) [5, 5] =
      some ([false, false], ⟨1/2, some 5, some 0, t⟩) := by
  rw [detectRun_cons _ (detect_init_first (1/2) t 5),
    detectRun_cons _ (detect_const_false (1/2) ht 5), detectRun_nil]
  rfl

lemma run_single5 (t : ℝ) :
    detectRun (init (1/2) t) [5] = some ([false], ⟨1/2, some 5, some 0, t⟩) := by
  rw [detectRun_cons _ (detect_init_first (1/2) t 5), detectRun_nil]
  rfl

/-- Claim C1, counterexample: the code computes the deviation from the
*refreshed* mean, not the pre-update one.  Starting from a fresh detector with
`alpha = 0.3`, `threshold = 3`, after the inputs `0` then `10` the code stores
`variance_ewma = 0.3·(10−3)² = 14.7`, while the claimed pre-update deviation
(`10 − 0 = 10`) would store `0.3·10² = 30`, as `detectSpecPre` does. -/
theorem C1_counterexample :
    (detectRun (init (3/10) 3) [0, 10]).map (fun r => r.2.variance_ewma) =
      some (some (147/10)) ∧
    (detectSpecPre ⟨3/10, some 0, some 0, 3⟩ 10).map (fun p => p.2.variance_ewma) =
      some (some 30) ∧
    (147/10 : ℝ) ≠ 30 := by
  refine ⟨by rw [run30_short]; rfl, ?_, by norm_num⟩
  rw [specPre_some rfl rfl 10]
  norm_num

/-- Claim C1, amended: in every `detect` call on an already-initialized
detector, the deviation used for both the variance update and the Z-score is
`value` minus the *refreshed* mean (the mean updated first, within the same
call), which equals `(1 − alpha)` times the deviation from the pre-update
mean. -/
theorem C1_deviation_from_refreshed_mean (a t m x v : ℝ) :
    (⟨a, some m, some x, t⟩ : ZScoreEWMA_AnomalyDetector).detect v =
      some (@decide (|(1 - a) * (v - m)| /
              (Real.sqrt (a * ((1 - a) * (v - m)) ^ 2 + (1 - a) * x) + 1e-6) > t)
            (Classical.propDecidable _),
        ⟨a, some (a * v + (1 - a) * m),
          some (a * ((1 - a) * (v - m)) ^ 2 + (1 - a) * x), t⟩) := by
  rw [detect_some rfl rfl v]
  have hdev : v - (a * v + (1 - a) * m) = (1 - a) * (v - m) := by ring
  rw [hdev]

/-- Claim C2, counterexample: with `alpha = 0.3`, `threshold = 3`, the input
sequence `[0, 0, 0, 0, 10]` yields the flags `[false, false, false, false,
false]` — the fifth flag is `false`, not `true` as claimed (the Z-score there
is `7/(√14.7 + 1e-6) < 3`). -/
theorem C2_counterexample :
    (detectRun (init (3/10) 3) [0, 0, 0, 0, 10]).map Prod.fst =
      some [false, false, false, false, false] ∧
    some [false, false, false, false, false] ≠
      some ([false, false, false, false, true] : List Bool) := by
  refine ⟨by rw [run30_scenario]; rfl, by simp⟩

/-- Claim C2, amended: for a fresh detector with smoothing factor `0.3` and
threshold `3`, the sequence `[0, 0, 0, 0, 10]` yields exactly the flags
`[false, false, false, false, false]` (the final state being mean `3`,
variance `14.7`). -/
theorem C2_scenario_all_false :
    detectRun (init (3/10) 3) [0, 0, 0, 0, 10] =
      some ([false, false, false, false, false], ⟨3/10, some 3, some (147/10), 3⟩) :=
  run30_scenario

/-- Claim C3, counterexample: construction never raises.  With the invalid
threshold `−1` (and valid `alpha = 0.5`) the detector is constructed and fully
usable — it answers two `detect` calls (even flagging the second constant
sample, since `0 > −1`); likewise with the invalid smoothing factor `2`. -/
theorem C3_counterexample :
    detectRun (init (1/2) (-1)) [5, 5] =
      some ([false, true], ⟨1/2, some 5, some 0, -1⟩) ∧
    detectRun (init 2 3) [1] = some ([false], ⟨2, some 1, some 0, 3⟩) := by
  constructor
  · rw [detectRun_cons _ (detect_init_first (1/2) (-1) 5),
      detectRun_cons _ (detect_const_true (1/2) (by norm_num) 5), detectRun_nil]
    rfl
  · rw [detectRun_cons _ (detect_init_first 2 3 1), detectRun_nil]
    rfl

/-- Claim C3, amended: construction performs no validation at all — every
smoothing factor and threshold (in range or not) is accepted, the parameters
are stored unchanged with both statistics uninitialized, and the resulting
detector is usable (`detect` operates normally). -/
theorem C3_no_validation (a t v : ℝ) :
    init a t = ⟨a, none, none, t⟩ ∧
    (init a t).detect v = some (false, ⟨a, some v, some 0, t⟩) :=
  ⟨rfl, detect_init_first a t v⟩

/-- Claim C4: for every freshly constructed detector and every first value
`v`, the first `detect v` call returns `false` and leaves the mean estimate
equal to `v` and the variance estimate equal to `0`. -/
theorem C4_cold_start (a t v : ℝ) :
    (init a t).detect v = some (false, ⟨a, some v, some 0, t⟩) :=
  detect_init_first a t v

/-- Claim C5: for a fixed input sequence and two detectors with the same
smoothing factor, if detector A's threshold is strictly smaller than detector
B's, every index flagged by B is also flagged by A. -/
theorem C5_threshold_monotone (a t1 t2 : ℝ) (vs : List ℝ) (bs1 bs2 : List Bool)
    (e1 e2 : ZScoreEWMA_AnomalyDetector) (ht : t1 < t2)
    (h1 : detectRun (init a t1) vs = some (bs1, e1))
    (h2 : detectRun (init a t2) vs = some (bs2, e2)) :
    ∀ i, bs2.getD i false = true → bs1.getD i false = true := by
  obtain ⟨cs1, f1, cs2, f2, hr1, hr2, -, -, hmono⟩ :=
    @run_pair (init a t1) (init a t2) vs rfl rfl rfl (init_WF a t1)
  rw [h1] at hr1
  rw [h2] at hr2
  injection hr1 with hp1
  injection hr2 with hp2
  have hb1 : bs1 = cs1 := congrArg Prod.fst hp1
  have hb2 : bs2 = cs2 := congrArg Prod.fst hp2
  intro i h
  rw [hb1]
  exact hmono (le_of_lt ht) i (hb2 ▸ h)

/-- Witness for C5 at `alpha = 0.5`, thresholds `1 < 2`, inputs `[5, 5]`. -/
theorem C5_witness :
    (1:ℝ) < 2 ∧
    (∀ i, ([false, false] : List Bool).getD i false = true →
      ([false, false] : List Bool).getD i false = true) :=
  ⟨by norm_num,
    C5_threshold_monotone (1/2) 1 2 [5, 5] [false, false] [false, false]
      ⟨1/2, some 5, some 0, 1⟩ ⟨1/2, some 5, some 0, 2⟩ (by norm_num)
      (run_const55 1 (by norm_num)) (run_const55 2 (by norm_num))⟩

/-- Claim C6: for every finite input sequence fed to a detector constructed
with smoothing factor in `(0,1)`, the variance estimate is nonnegative after
every call (stated for the state after running an arbitrary finite sequence,
which covers every prefix of any stream). -/
theorem C6_variance_nonneg (a t x : ℝ) (vs : List ℝ) (bs : List Bool)
    (e : ZScoreEWMA_AnomalyDetector) (h0 : 0 < a) (h1 : a < 1)
    (hrun : detectRun (init a t) vs = some (bs, e))
    (hx : e.variance_ewma = some x) : 0 ≤ x :=
  run_var_nonneg h0.le h1.le (fun _ hy => Option.noConfusion hy) hrun x hx

/-- Witness for C6 at `alpha = 0.5`, threshold `3`, inputs `[5, 5]`. -/
theorem C6_witness :
    detectRun (init (1/2) 3) [5, 5] =
      some ([false, false], ⟨1/2, some 5, some 0, 3⟩) ∧ (0:ℝ) ≤ 0 :=
  ⟨run_const55 3 (by norm_num),
    C6_variance_nonneg (1/2) 3 0 [5, 5] [false, false] ⟨1/2, some 5, some 0, 3⟩
      (by norm_num) (by norm_num) (run_const55 3 (by norm_num)) rfl⟩

/-- Claim C7: feeding the same value `v` on every call (including the
cold-start call) returns `false` on every call, for every number of
repetitions (the detector's threshold being positive, as the data model
requires). -/
theorem C7_constant_stream (a t v : ℝ) (n : ℕ) (ht : 0 < t) :
    (detectRun (init a t) (List.replicate n v)).map Prod.fst =
      some (List.replicate n false) := by
  cases n with
  | zero => rfl
  | succ n =>
      rw [List.replicate_succ, detectRun_cons _ (detect_init_first a t v),
        run_const ht.le v n, List.replicate_succ]
      rfl

/-- Witness for C7: three repetitions of `5` at `alpha = 0.5`, threshold `3`. -/
theorem C7_witness :
    (0:ℝ) < 3 ∧
    (detectRun (init (1/2) 3) (List.replicate 3 5)).map Prod.fst =
      some (List.replicate 3 false) :=
  ⟨by norm_num, C7_constant_stream (1/2) 3 5 3 (by norm_num)⟩

/-- Claim C8: two detectors with identical smoothing factor, threshold and
(identical, fresh-or-not) statistics, fed the identical input sequence,
produce identical flag sequences and identical final states. -/
theorem C8_determinism (d1 d2 : ZScoreEWMA_AnomalyDetector) (vs : List ℝ)
    (ha : d1.alpha = d2.alpha) (ht : d1.threshold = d2.threshold)
    (hm : d1.mean_ewma = d2.mean_ewma) (hv : d1.variance_ewma = d2.variance_ewma) :
    detectRun d1 vs = detectRun d2 vs := by
  obtain ⟨a1, m1, x1, t1⟩ := d1
  obtain ⟨a2, m2, x2, t2⟩ := d2
  have h : ZScoreEWMA_AnomalyDetector.mk a1 m1 x1 t1 =
      ZScoreEWMA_AnomalyDetector.mk a2 m2 x2 t2 := by
    rw [ZScoreEWMA_AnomalyDetector.mk.injEq]
    exact ⟨ha, hm, hv, ht⟩
  rw [h]

/-- Witness for C8: two identically-parameterized fresh detectors on `[1, 2]`. -/
theorem C8_witness :
    detectRun (init (1/2) 3) [1, 2] = detectRun (init (1/2) 3) [1, 2] :=
  C8_determinism (init (1/2) 3) (init (1/2) 3) [1, 2] rfl rfl rfl rfl

/-- Claim C9: on every state reachable by constructing a detector and feeding
it any finite input sequence, `detect` never fails: it returns a flag and a
successor state (the modelled `TypeError` state is unreachable, and the
Z-score divisor `√variance + 1e-6` is always positive in the reals). -/
theorem C9_detect_total_on_reachable (d : ZScoreEWMA_AnomalyDetector) (v : ℝ)
    (h : Reachable d) : ∃ b e, d.detect v = some (b, e) := by
  obtain ⟨b, e, he, -, -, -⟩ := detect_total (reachable_WF h) v
  exact ⟨b, e, he⟩

/-- Witness for C9: the freshly constructed detector is reachable (empty run)
and answers `detect 7`. -/
theorem C9_witness : ∃ b e, (init (1/2) 3).detect 7 = some (b, e) :=
  C9_detect_total_on_reachable (init (1/2) 3) 7 ⟨1/2, 3, [], [], rfl⟩

/-- Claim C10: the statistics (mean and variance estimates) after any run
depend only on the smoothing factor and the inputs, never on the threshold;
and a run leaves the smoothing factor and threshold fields unchanged. -/
theorem C10_threshold_independence (a t1 t2 : ℝ) (vs : List ℝ) :
    ((detectRun (init a t1) vs).map fun r => (r.2.mean_ewma, r.2.variance_ewma)) =
      ((detectRun (init a t2) vs).map fun r => (r.2.mean_ewma, r.2.variance_ewma)) ∧
    (∀ bs e, detectRun (init a t1) vs = some (bs, e) →
      e.alpha = a ∧ e.threshold = t1) := by
  constructor
  · obtain ⟨bs1, e1, bs2, e2, hr1, hr2, hm, hv, -⟩ :=
      @run_pair (init a t1) (init a t2) vs rfl rfl rfl (init_WF a t1)
    rw [hr1, hr2]
    exact congrArg some (by show (e1.mean_ewma, e1.variance_ewma) =
      (e2.mean_ewma, e2.variance_ewma); rw [hm, hv])
  · intro bs e hrun
    obtain ⟨bs', e', hrun', -, ha', ht'⟩ := run_total vs (init_WF a t1)
    rw [hrun] at hrun'
    injection hrun' with hp
    have he : e = e' := congrArg Prod.snd hp
    exact ⟨by rw [he]; exact ha', by rw [he]; exact ht'⟩

/-- Witness for C10: thresholds `3` and `4` at `alpha = 0.5` on the input
`[5]` give identical statistics, and the run preserves both parameters. -/
theorem C10_witness :
    ((detectRun (init (1/2) 3) [5]).map fun r => (r.2.mean_ewma, r.2.variance_ewma)) =
      ((detectRun (init (1/2) 4) [5]).map fun r => (r.2.mean_ewma, r.2.variance_ewma)) ∧
    (⟨1/2, some 5, some 0, 3⟩ : ZScoreEWMA_AnomalyDetector).alpha = 1/2 ∧
    (⟨1/2, some 5, some 0, 3⟩ : ZScoreEWMA_AnomalyDetector).threshold = 3 :=
  ⟨(C10_threshold_independence (1/2) 3 4 [5]).1,
    (C10_threshold_independence (1/2) 3 4 [5]).2 [false] ⟨1/2, some 5, some 0, 3⟩
      (run_single5 3)⟩

end ZScoreEWMA_AnomalyDetector
